import Mathlib

/-!
Verification of the pipeline orchestration and validation core of
`src/run_pipeline.py` (QRAFT Phase 1 pipeline runner).

Python strings are modelled as `List Char`; JSON values decoded by
`json.loads` are modelled by the inductive type `JVal`.  Python operations
that can raise a runtime exception (`in` on a non-container, subscripting,
`.get` on a non-dict, iteration of a non-iterable) are modelled in the
`PM` monad (`Except` over the exception name), so that an uncaught Python
exception is an explicit `.error` outcome, distinct from the deliberate
`_fail` path of the program.
-/

namespace RunPipeline

/-- Python `str` values are modelled as lists of characters. -/
abbrev PyStr := List Char

/-- JSON values as produced by `json.loads`: `null`, booleans, numbers
(the model restricts numerals to integers; no behaviour considered here
involves non-integer numbers), strings, arrays and objects.  Objects keep
the key/value pairs in decoding order. -/
inductive JVal where
  | jnull
  | jbool (b : Bool)
  | jnum (n : Int)
  | jstr (s : PyStr)
  | jarr (xs : List JVal)
  | jobj (kvs : List (PyStr × JVal))

open JVal

/-- Python dict lookup.  `json.loads` lets a later duplicate key win, so
lookup returns the value of the last matching pair. -/
def lookupKV : List (PyStr × JVal) → PyStr → Option JVal
  | [], _ => none
  | (k, v) :: rest, key =>
    match lookupKV rest key with
    | some w => some w
    | none => if k == key then some v else none

/-- Dict lookup with a default, as in Python `dict.get(key, default)`. -/
def lookupD (kvs : List (PyStr × JVal)) (key : PyStr) (dflt : JVal) : JVal :=
  (lookupKV kvs key).getD dflt

/-- The result of running a piece of Python code that can raise: either a
value, or an uncaught exception carrying the exception class name. -/
abbrev PM (α : Type) := Except PyStr α

def typeError : PyStr := "TypeError".toList
def attributeError : PyStr := "AttributeError".toList
def keyError : PyStr := "KeyError".toList

/-- Python substring test `pat in s`: does `pat` occur as a contiguous
substring of `s`? -/
def isSubstr : PyStr → PyStr → Bool
  | pat, [] => pat.isEmpty
  | pat, c :: rest => pat.isPrefixOf (c :: rest) || isSubstr pat rest

/-- Python `==` between a JSON value and a `str`: only equal-valued strings
compare equal; values of any other type are never `==` to a `str`. -/
def jvalEqStr : JVal → PyStr → Bool
  | .jstr t, s => t == s
  | _, _ => false

/-- Python `key in v` for a string `key`: key membership for dicts, element
membership for lists, substring test for strings; raises `TypeError`
otherwise. -/
def pyIn (key : PyStr) (v : JVal) : PM Bool :=
  match v with
  | .jobj kvs => .ok (kvs.any (fun kv => kv.1 == key))
  | .jarr xs => .ok (xs.any (fun x => jvalEqStr x key))
  | .jstr s => .ok (isSubstr key s)
  | _ => .error typeError

/-- Python `v[key]` for a string `key`: dict lookup (raising `KeyError`
when absent); raises `TypeError` on any non-dict value. -/
def pySub (v : JVal) (key : PyStr) : PM JVal :=
  match v with
  | .jobj kvs =>
    match lookupKV kvs key with
    | some w => .ok w
    | none => .error keyError
  | _ => .error typeError

/-- Python `v.get(key, dflt)`: only dicts have `.get`; any other value
raises `AttributeError`. -/
def pyGet (v : JVal) (key : PyStr) (dflt : JVal) : PM JVal :=
  match v with
  | .jobj kvs => .ok (lookupD kvs key dflt)
  | _ => .error attributeError

/-- Python iteration `for x in v`: a list yields its elements, a string
yields its characters (as one-character strings), a dict yields its keys;
any other value raises `TypeError`. -/
def pyIter (v : JVal) : PM (List JVal) :=
  match v with
  | .jarr xs => .ok xs
  | .jstr s => .ok (s.map (fun c => jstr [c]))
  | .jobj kvs => .ok (kvs.map (fun kv => jstr kv.1))
  | _ => .error typeError

/-- Decimal rendering of an integer, as Python `str(int)`. -/
def intStr (n : Int) : PyStr := (toString n).toList

mutual
/-- Python `repr` of a JSON-decoded value (used by `str()` inside
f-strings when the value is a container): strings in single quotes, `None`,
`True`/`False`, numbers in decimal, lists in brackets, dicts in braces. -/
def pyRepr : JVal → PyStr
  | .jnull => "None".toList
  | .jbool true => "True".toList
  | .jbool false => "False".toList
  | .jnum n => intStr n
  | .jstr s => '\x27' :: (s ++ ['\x27'])
  | .jarr xs => '[' :: (pyReprL xs ++ [']'])
  | .jobj kvs => '\x7b' :: (pyReprO kvs ++ ['\x7d'])

def pyReprL : List JVal → PyStr
  | [] => []
  | [x] => pyRepr x
  | x :: y :: rest => pyRepr x ++ (", ".toList ++ pyReprL (y :: rest))

def pyReprO : List (PyStr × JVal) → PyStr
  | [] => []
  | [(k, v)] => ('\x27' :: (k ++ ['\x27'])) ++ (": ".toList ++ pyRepr v)
  | (k, v) :: p :: rest =>
    ('\x27' :: (k ++ ['\x27'])) ++ (": ".toList ++ pyRepr v) ++ (", ".toList ++ pyReprO (p :: rest))
end

/-- Python `str()` of a JSON-decoded value, as interpolated by an f-string:
a string interpolates as itself, other scalars as their textual form,
containers via their `repr`. -/
def pyFormat : JVal → PyStr
  | .jstr s => s
  | .jnull => "None".toList
  | .jbool true => "True".toList
  | .jbool false => "False".toList
  | .jnum n => intStr n
  | .jarr xs => pyRepr (jarr xs)
  | .jobj kvs => pyRepr (jobj kvs)

/-- The characters Python `str.strip()` removes by default (ASCII
whitespace). -/
def isPySpace (c : Char) : Bool :=
  c == ' ' || c == '\t' || c == '\n' || c == '\r' || c == '\x0b' || c == '\x0c'

/-- Python `str.strip()`: remove leading and trailing whitespace. -/
def pyStrip (s : PyStr) : PyStr :=
  ((s.dropWhile isPySpace).reverse.dropWhile isPySpace).reverse

/-- Python `str.removeprefix(pre)`. -/
def stripPre (s pre : PyStr) : PyStr :=
  if pre.isPrefixOf s then s.drop pre.length else s

/-- Python `str.removesuffix(suf)`. -/
def stripSuf (s suf : PyStr) : PyStr :=
  if suf.isSuffixOf s then s.take (s.length - suf.length) else s

/-- Fuel-driven worker for Python `str.replace`: replaces non-overlapping
occurrences of `pat` left to right.  The fuel (initially the length of the
text, which bounds the number of steps) makes the definition structurally
recursive. -/
def replaceAllF : Nat → PyStr → PyStr → PyStr → PyStr
  | 0, s, _, _ => s
  | _ + 1, [], _, _ => []
  | f + 1, c :: rest, pat, rep =>
    if !pat.isEmpty && pat.isPrefixOf (c :: rest) then
      rep ++ replaceAllF f (rest.drop (pat.length - 1)) pat rep
    else
      c :: replaceAllF f rest pat rep

/-- Python `s.replace(pat, rep)` for a non-empty `pat`. -/
def replaceAll (s pat rep : PyStr) : PyStr :=
  replaceAllF s.length s pat rep

def fence3 : PyStr := "```".toList
def fenceJson : PyStr := "```json".toList

/-- The sanitisation step of `parse_json_output` (run_pipeline.py line 52):
`raw.strip().removeprefix("json").removeprefix("\x60\x60\x60").removesuffix("\x60\x60\x60").strip()`
with the fenced markers written out. -/
def sanitize (raw : PyStr) : PyStr :=
  pyStrip (stripSuf (stripPre (stripPre (pyStrip raw) fenceJson) fence3) fence3)

/-! ### A model of `json.loads`

A fuel-driven recursive-descent decoder.  The fuel only serves to make the
recursion structural; `jsonLoads` passes enough fuel for any input.  The
model restricts numerals to integers and accepts any non-quote character
inside strings; no behaviour considered here depends on the difference. -/

/-- JSON insignificant whitespace. -/
def isJsonWs (c : Char) : Bool :=
  c == ' ' || c == '\t' || c == '\n' || c == '\r'

def skipWs (s : PyStr) : PyStr := s.dropWhile isJsonWs

def hexVal (c : Char) : Option Nat :=
  let n := c.toNat
  if 48 ≤ n && n ≤ 57 then some (n - 48)
  else if 97 ≤ n && n ≤ 102 then some (n - 87)
  else if 65 ≤ n && n ≤ 70 then some (n - 55)
  else none

/-- The single-character JSON escapes, as source/decoded pairs. -/
def jsonEscPairs : List (Char × Char) :=
  [('"', '"'), ('\\', '\\'), ('/', '/'), ('b', '\x08'), ('f', '\x0c'),
    ('n', '\n'), ('r', '\r'), ('t', '\t')]

/-- Single-character JSON escapes. -/
def jsonEsc (c : Char) : Option Char :=
  (jsonEscPairs.find? (fun p => p.1 == c)).map (fun p => p.2)

/-- Parse the body of a JSON string after the opening quote; returns the
decoded characters and the remaining input after the closing quote. -/
def jStrBody : PyStr → Option (PyStr × PyStr)
  | [] => none
  | c :: rest =>
    if c == '"' then some ([], rest)
    else if c == '\\' then
      match rest with
      | [] => none
      | e :: r2 =>
        if e == 'u' then
          match r2 with
          | a :: b :: c2 :: d :: r3 =>
            match hexVal a, hexVal b, hexVal c2, hexVal d with
            | some x, some y, some z, some w =>
              (jStrBody r3).map (fun p => (Char.ofNat (x * 4096 + y * 256 + z * 16 + w) :: p.1, p.2))
            | _, _, _, _ => none
          | _ => none
        else
          match jsonEsc e with
          | some ch => (jStrBody r2).map (fun p => (ch :: p.1, p.2))
          | none => none
    else (jStrBody rest).map (fun p => (c :: p.1, p.2))

def digitsToNat (ds : PyStr) : Nat :=
  ds.foldl (fun acc c => acc * 10 + (c.toNat - '0'.toNat)) 0

/-- Parse an integer numeral (the model rejects fractions and exponents). -/
def jNum (s : PyStr) : Option (JVal × PyStr) :=
  let neg := s.take 1 == ['-']
  let t := if neg then s.drop 1 else s
  let ds := t.takeWhile Char.isDigit
  let r := t.dropWhile Char.isDigit
  if ds.isEmpty then none
  else
    match r with
    | '.' :: _ => none
    | 'e' :: _ => none
    | 'E' :: _ => none
    | _ =>
      let n : Int := Int.ofNat (digitsToNat ds)
      some (jnum (if neg then -n else n), r)

mutual
def jVal : Nat → PyStr → Option (JVal × PyStr)
  | 0, _ => none
  | f + 1, s =>
    match s with
    | [] => none
    | c :: rest =>
      if c == '"' then (jStrBody rest).map (fun p => (jstr p.1, p.2))
      else if c == '[' then
        match skipWs rest with
        | ']' :: r2 => some (jarr [], r2)
        | r2 => (jItems f r2).map (fun p => (jarr p.1, p.2))
      else if c == '\x7b' then
        match skipWs rest with
        | '\x7d' :: r2 => some (jobj [], r2)
        | r2 => (jMembers f r2).map (fun p => (jobj p.1, p.2))
      else if "true".toList.isPrefixOf s then some (jbool true, s.drop 4)
      else if "false".toList.isPrefixOf s then some (jbool false, s.drop 5)
      else if "null".toList.isPrefixOf s then some (jnull, s.drop 4)
      else jNum s

def jItems : Nat → PyStr → Option (List JVal × PyStr)
  | 0, _ => none
  | f + 1, s => do
    let (v, r) ← jVal f s
    match skipWs r with
    | ',' :: r2 => (jItems f (skipWs r2)).map (fun p => (v :: p.1, p.2))
    | ']' :: r2 => some ([v], r2)
    | _ => none

def jMembers : Nat → PyStr → Option (List (PyStr × JVal) × PyStr)
  | 0, _ => none
  | f + 1, s =>
    match s with
    | '"' :: rest => do
      let (k, r) ← jStrBody rest
      match skipWs r with
      | ':' :: r2 => do
        let (v, r3) ← jVal f (skipWs r2)
        match skipWs r3 with
        | ',' :: r4 =>
          match skipWs r4 with
          | '"' :: r5 => (jMembers f ('"' :: r5)).map (fun p => ((k, v) :: p.1, p.2))
          | _ => none
        | '\x7d' :: r4 => some ([(k, v)], r4)
        | _ => none
      | _ => none
    | _ => none
end

/-- The model of `json.loads`: decode one JSON value, requiring the rest of
the input to be whitespace. -/
def jsonLoads (s : PyStr) : Option JVal :=
  match jVal (s.length + 1) (skipWs s) with
  | some (v, rest) => if (skipWs rest).isEmpty then some v else none
  | none => none

/-- `parse_json_output` (run_pipeline.py lines 51-60): sanitize the raw
text, then decode it as JSON.  `none` models the `_fail` path taken on a
`json.JSONDecodeError` (which reports the parse error and the full
sanitized text, then exits). -/
def parse_json_output (raw : PyStr) : Option JVal :=
  jsonLoads (sanitize raw)

/-! ### A model of `json.dumps(-, indent=2)` -/

def spaces (n : Nat) : PyStr := List.replicate n ' '

def hexDigit (n : Nat) : Char :=
  if n < 10 then Char.ofNat ('0'.toNat + n) else Char.ofNat ('a'.toNat + (n - 10))

def hex4 (n : Nat) : PyStr :=
  [hexDigit (n / 4096 % 16), hexDigit (n / 256 % 16), hexDigit (n / 16 % 16), hexDigit (n % 16)]

/-- One character of a serialised JSON string, with `ensure_ascii`
controlling whether characters beyond ASCII are `\u`-escaped. -/
def jEscChar (ascii : Bool) (c : Char) : PyStr :=
  if c == '"' then ['\\', '"']
  else if c == '\\' then ['\\', '\\']
  else if c == '\n' then ['\\', 'n']
  else if c == '\t' then ['\\', 't']
  else if c == '\r' then ['\\', 'r']
  else if c == '\x08' then ['\\', 'b']
  else if c == '\x0c' then ['\\', 'f']
  else if c.toNat < 32 then '\\' :: 'u' :: hex4 c.toNat
  else if ascii && 126 < c.toNat then
    if c.toNat ≤ 65535 then '\\' :: 'u' :: hex4 c.toNat
    else
      ('\\' :: 'u' :: hex4 (55296 + (c.toNat - 65536) / 1024)) ++
        ('\\' :: 'u' :: hex4 (56320 + (c.toNat - 65536) % 1024))
  else [c]

def jEscStr (ascii : Bool) (s : PyStr) : PyStr :=
  '"' :: s.foldr (fun c acc => jEscChar ascii c ++ acc) ['"']

mutual
/-- `json.dumps(v, indent=2)` at enclosing indentation `ind`. -/
def dumpsV (ascii : Bool) (ind : Nat) : JVal → PyStr
  | .jnull => "null".toList
  | .jbool true => "true".toList
  | .jbool false => "false".toList
  | .jnum n => intStr n
  | .jstr s => jEscStr ascii s
  | .jarr [] => ['[', ']']
  | .jarr (x :: xs) =>
    '[' :: '\n' :: (dumpsL ascii (ind + 2) (x :: xs) ++ ('\n' :: (spaces ind ++ [']'])))
  | .jobj [] => ['\x7b', '\x7d']
  | .jobj (p :: ps) =>
    '\x7b' :: '\n' :: (dumpsO ascii (ind + 2) (p :: ps) ++ ('\n' :: (spaces ind ++ ['\x7d'])))

def dumpsL (ascii : Bool) (ind : Nat) : List JVal → PyStr
  | [] => []
  | [x] => spaces ind ++ dumpsV ascii ind x
  | x :: y :: rest =>
    (spaces ind ++ dumpsV ascii ind x) ++ (',' :: '\n' :: dumpsL ascii ind (y :: rest))

def dumpsO (ascii : Bool) (ind : Nat) : List (PyStr × JVal) → PyStr
  | [] => []
  | [(k, v)] => spaces ind ++ (jEscStr ascii k ++ (':' :: ' ' :: dumpsV ascii ind v))
  | (k, v) :: p :: rest =>
    (spaces ind ++ (jEscStr ascii k ++ (':' :: ' ' :: dumpsV ascii ind v))) ++
      (',' :: '\n' :: dumpsO ascii ind (p :: rest))
end

/-- `json.dumps(v, indent=2)` (with `ensure_ascii` as flagged). -/
def dumps (ascii : Bool) (v : JVal) : PyStr := dumpsV ascii 0 v

/-! ### The stage validators -/

/-- Outcome of running a validator: it returns normally (`ok`), it calls
`_fail` with a list of violation messages (`fail` — the program joins them
into the single diagnostic printed before `sys.exit(1)`), or it raises an
uncaught Python exception (`exn`, carrying the exception class name). -/
inductive VResult where
  | ok
  | fail (errs : List PyStr)
  | exn (name : PyStr)
deriving DecidableEq

/-- `true` when the validator finished its scan without an uncaught
exception and, if it failed, did so with a non-empty violation list. -/
def VResult.clean : VResult → Bool
  | .ok => true
  | .fail errs => !errs.isEmpty
  | .exn _ => false

def VResult.isExn : VResult → Bool
  | .exn _ => true
  | _ => false

def pcKey : PyStr := "plan_context".toList
def reqsKey : PyStr := "requirements".toList
def ridKey : PyStr := "req_id".toList
def tcIdKey : PyStr := "tc_id".toList
def typeKey : PyStr := "type".toList
def surfaceKey : PyStr := "surface".toList
def tcsKey : PyStr := "test_cases".toList
def projCtxKey : PyStr := "project_context".toList
def unknownStr : PyStr := "unknown".toList

def pcFields : List PyStr :=
  ["purpose".toList, "in_scope".toList, "out_of_scope".toList]

def reqFields : List PyStr :=
  ["req_id".toList, "prd_ref".toList, "ambiguity_flags".toList]

def riskFields : List PyStr :=
  ["req_id".toList, "risk".toList, "severity".toList, "severity_locked".toList,
    "test_cases".toList]

def validTypes : List PyStr :=
  ["unit".toList, "integration".toList, "e2e".toList, "exploratory".toList,
    "non_functional".toList]

def validSurfaces : List PyStr :=
  ["ui".toList, "api".toList, "service".toList, "workflow".toList]

/-- The inner loop of `_validate_intake` over
`["purpose", "in_scope", "out_of_scope"]` (lines 136-138): for each field
absent from `data["plan_context"]` append `"plan_context.field"`. -/
def pcMissing (pc : JVal) : List PyStr → PM (List PyStr)
  | [] => .ok []
  | fld :: rest =>
    match pyIn fld pc with
    | .error e => .error e
    | .ok b =>
      match pcMissing pc rest with
      | .error e => .error e
      | .ok more => .ok (if b then more else (pcKey ++ ('.' :: fld)) :: more)

/-- The inner loop of `_validate_intake` over one requirement
(lines 143-145): for each absent field append
`f"(req.get(req_id, unknown)).(field)"`. -/
def reqMissing (req : JVal) : List PyStr → PM (List PyStr)
  | [] => .ok []
  | fld :: rest =>
    match pyIn fld req with
    | .error e => .error e
    | .ok true => reqMissing req rest
    | .ok false =>
      match pyGet req ridKey (jstr unknownStr) with
      | .error e => .error e
      | .ok rid =>
        match reqMissing req rest with
        | .error e => .error e
        | .ok more => .ok ((pyFormat rid ++ ('.' :: fld)) :: more)

/-- The loop of `_validate_intake` over `data["requirements"]`
(lines 142-145). -/
def reqsMissing : List JVal → PM (List PyStr)
  | [] => .ok []
  | r :: rs =>
    match reqMissing r reqFields with
    | .error e => .error e
    | .ok m =>
      match reqsMissing rs with
      | .error e => .error e
      | .ok ms => .ok (m ++ ms)

/-- The `missing` list built by `_validate_intake` (lines 131-145). -/
def intakeMissingPM (data : JVal) : PM (List PyStr) :=
  match pyIn pcKey data with
  | .error e => .error e
  | .ok bpc =>
    match ((if bpc then
            match pySub data pcKey with
            | .error e => .error e
            | .ok pc => pcMissing pc pcFields
          else .ok [pcKey]) : PM (List PyStr)) with
    | .error e => .error e
    | .ok part1 =>
      match pyIn reqsKey data with
      | .error e => .error e
      | .ok brq =>
        match ((if brq then
                match pySub data reqsKey with
                | .error e => .error e
                | .ok rq =>
                  match pyIter rq with
                  | .error e => .error e
                  | .ok rs => reqsMissing rs
              else .ok [reqsKey]) : PM (List PyStr)) with
        | .error e => .error e
        | .ok part2 => .ok (part1 ++ part2)

/-- `_validate_intake` (run_pipeline.py lines 131-148). -/
def _validate_intake (data : JVal) : VResult :=
  match intakeMissingPM data with
  | .error e => .exn e
  | .ok missing => if missing.isEmpty then .ok else .fail missing

/-- The distinguishing line of the wrong-top-level-shape `_fail` message of
`_validate_risk` (line 200). -/
def riskShapeMsg : PyStr := "Expected a JSON array but got something else.".toList

def msgMissingField (who fld : PyStr) : PyStr :=
  who ++ (": missing field \x27".toList ++ (fld ++ ['\x27']))

def msgInvalid (who kind val : PyStr) : PyStr :=
  who ++ ((": invalid ".toList ++ kind) ++ (" \x27".toList ++ (val ++ ['\x27'])))

/-- Python `v in set_of_strings`: string membership; `False` for hashable
non-strings; `TypeError` for unhashable values (lists, dicts). -/
def pyInSet (v : JVal) (set : List PyStr) : PM Bool :=
  match v with
  | .jstr s => .ok (set.any (fun t => t == s))
  | .jarr _ => .error typeError
  | .jobj _ => .error typeError
  | _ => .ok false

/-- The loop of `_validate_risk` over the five required entry fields
(lines 208-210). -/
def entryFieldErrs (rid : PyStr) (entry : JVal) : List PyStr → PM (List PyStr)
  | [] => .ok []
  | fld :: rest =>
    match pyIn fld entry with
    | .error e => .error e
    | .ok b =>
      match entryFieldErrs rid entry rest with
      | .error e => .error e
      | .ok more => .ok (if b then more else msgMissingField rid fld :: more)

/-- One `type`/`surface` check of `_validate_risk` (lines 213-220): missing
field, or present with a value outside the closed enumeration. -/
def tcEnumErrs (tc : JVal) (tcid key : PyStr) (valid : List PyStr) : PM (List PyStr) :=
  match pyIn key tc with
  | .error e => .error e
  | .ok false => .ok [msgMissingField tcid key]
  | .ok true =>
    match pySub tc key with
    | .error e => .error e
    | .ok v =>
      match pyInSet v valid with
      | .error e => .error e
      | .ok true => .ok []
      | .ok false => .ok [msgInvalid tcid key (pyFormat v)]

/-- The per-test-case checks of `_validate_risk` (lines 211-220). -/
def tcErrs (tc : JVal) : PM (List PyStr) :=
  match pyGet tc tcIdKey (jstr unknownStr) with
  | .error e => .error e
  | .ok tcidV =>
    match tcEnumErrs tc (pyFormat tcidV) typeKey validTypes with
    | .error e => .error e
    | .ok te =>
      match tcEnumErrs tc (pyFormat tcidV) surfaceKey validSurfaces with
      | .error e => .error e
      | .ok se => .ok (te ++ se)

def tcsErrs : List JVal → PM (List PyStr)
  | [] => .ok []
  | t :: ts =>
    match tcErrs t with
    | .error e => .error e
    | .ok m =>
      match tcsErrs ts with
      | .error e => .error e
      | .ok ms => .ok (m ++ ms)

/-- The per-entry checks of `_validate_risk` (lines 206-220). -/
def entryErrs (entry : JVal) : PM (List PyStr) :=
  match pyGet entry ridKey (jstr unknownStr) with
  | .error e => .error e
  | .ok ridV =>
    match entryFieldErrs (pyFormat ridV) entry riskFields with
    | .error e => .error e
    | .ok fe =>
      match pyGet entry tcsKey (jarr []) with
      | .error e => .error e
      | .ok tcsV =>
        match pyIter tcsV with
        | .error e => .error e
        | .ok tcs =>
          match tcsErrs tcs with
          | .error e => .error e
          | .ok te => .ok (fe ++ te)

def entriesErrs : List JVal → PM (List PyStr)
  | [] => .ok []
  | e :: es =>
    match entryErrs e with
    | .error er => .error er
    | .ok m =>
      match entriesErrs es with
      | .error er => .error er
      | .ok ms => .ok (m ++ ms)

/-- `_validate_risk` (run_pipeline.py lines 198-223): the
`isinstance(data, list)` check fails immediately with the wrong-shape
message; otherwise all per-entry and per-test-case violations are
accumulated and reported at once. -/
def _validate_risk (data : JVal) : VResult :=
  match data with
  | .jarr xs =>
    match entriesErrs xs with
    | .error e => .exn e
    | .ok errs => if errs.isEmpty then .ok else .fail errs
  | _ => .fail [riskShapeMsg]

def requiredSections : List PyStr :=
  ["## Purpose".toList, "## In Scope".toList, "## Out of Scope".toList,
    "## Review Decision".toList]

/-- `_validate_review` (run_pipeline.py lines 271-280): collect the
required section markers that do not occur as substrings, and fail with
exactly that list when it is non-empty. -/
def _validate_review (content : PyStr) : VResult :=
  let missing := requiredSections.filter (fun s => !(isSubstr s content))
  if missing.isEmpty then .ok else .fail missing

/-! ### Stage input construction and the Review output transform -/

/-- The user message built by `run_risk_agent` (lines 161-169); building it
evaluates `intake_output.get`, which raises on a non-dict, so the result
lives in `PM`. -/
def riskUserMessage (intake_output : JVal) : PM PyStr :=
  match pyGet intake_output reqsKey (jarr []) with
  | .error e => .error e
  | .ok requirements =>
    match pyGet intake_output projCtxKey jnull with
    | .error e => .error e
    | .ok project_context =>
      .ok ("Here are the inputs to process:\n\nPROJECT CONTEXT:\n".toList ++
        (dumps true project_context ++
          ("\n\nREQUIREMENTS:\n".toList ++ dumps true requirements)))

/-- The user message built by `run_review_agent` (lines 237-244);
`json.dumps(..., ensure_ascii=False)` for both payloads. -/
def reviewUserMessage (intake_output risk_output : JVal) (folder today : PyStr) : PyStr :=
  "Here are the two inputs to render:\n\nINTAKE OUTPUT:\n".toList ++
    (dumps false intake_output ++
      ("\n\nRISK OUTPUT:\n".toList ++
        (dumps false risk_output ++
          ("\n\nArtifact ID: qraft-v1-".toList ++
            (folder ++
              ("\nPRD Source: ".toList ++
                (folder ++ (".md\nGenerated: ".toList ++ today))))))))

/-- The mojibake byte sequence replaced by `run_review_agent` (line 260):
U+00E2 U+0080 U+0094. -/
def mojibake : PyStr := ['â', '\u0080', '\u0094']

def emDash : Char := '—'

/-- The text `run_review_agent` validates and persists (line 260):
`raw.replace("â...", "(em dash)").strip()`. -/
def reviewOutput (raw : PyStr) : PyStr :=
  pyStrip (replaceAll raw mojibake [emDash])

/-! ### The pipeline orchestrator -/

inductive Stage where
  | intake
  | risk
  | review
deriving DecidableEq

/-- Observable pipeline actions: a Gateway (model API) call for a stage,
and the persistence of a stage artifact via `save_json`/`save_text`. -/
inductive Event where
  | gatewayCall (s : Stage)
  | persist (s : Stage)
deriving DecidableEq

/-- The run environment: the credential and the three instruction
templates (`none` models an absent `.env` entry or prompt file), the input
document, the black-box generation backend (one deterministic completion
per stage — each stage calls it exactly once), and the invocation-derived
folder name and date. -/
structure Config where
  apiKey : Option PyStr
  intakePrompt : Option PyStr
  riskPrompt : Option PyStr
  reviewPrompt : Option PyStr
  prd : Option PyStr
  oracle : Stage → PyStr
  folderName : PyStr
  today : PyStr

/-- `run_intake_agent` (lines 92-128): load the prompt and the PRD, call
the model, parse, validate, then persist.  Returns the events it performed
and the validated output (`none` when the run died in this stage, whether
by `_fail` or by an uncaught exception). -/
def run_intake_agent (cfg : Config) : List Event × Option JVal :=
  match cfg.intakePrompt with
  | none => ([], none)
  | some _ =>
    match cfg.prd with
    | none => ([], none)
    | some _ =>
      match parse_json_output (cfg.oracle .intake) with
      | none => ([.gatewayCall .intake], none)
      | some output =>
        match _validate_intake output with
        | .ok => ([.gatewayCall .intake, .persist .intake], some output)
        | _ => ([.gatewayCall .intake], none)

/-- `run_risk_agent` (lines 155-195): load the prompt, build the user
message from the Intake output, call the model, parse, validate,
persist. -/
def run_risk_agent (cfg : Config) (intake_output : JVal) : List Event × Option JVal :=
  match cfg.riskPrompt with
  | none => ([], none)
  | some _ =>
    match riskUserMessage intake_output with
    | .error _ => ([], none)
    | .ok _ =>
      match parse_json_output (cfg.oracle .risk) with
      | none => ([.gatewayCall .risk], none)
      | some output =>
        match _validate_risk output with
        | .ok => ([.gatewayCall .risk, .persist .risk], some output)
        | _ => ([.gatewayCall .risk], none)

/-- `run_review_agent` (lines 230-268): load the prompt, build the user
message, call the model, transform the raw text, validate, persist.  On
success it returns the persisted text. -/
def run_review_agent (cfg : Config) (intake_output risk_output : JVal) :
    List Event × Option PyStr :=
  match cfg.reviewPrompt with
  | none => ([], none)
  | some _ =>
    let _msg := reviewUserMessage intake_output risk_output cfg.folderName cfg.today
    match _validate_review (reviewOutput (cfg.oracle .review)) with
    | .ok =>
      ([.gatewayCall .review, .persist .review], some (reviewOutput (cfg.oracle .review)))
    | _ => ([.gatewayCall .review], none)

/-- `main` (lines 287-311): resolve the credential, then run the three
stages in order, each consuming the previous stage's validated output;
any stage failure aborts the run (`false`). -/
def runPipeline (cfg : Config) : List Event × Bool :=
  match cfg.apiKey with
  | none => ([], false)
  | some _ =>
    match run_intake_agent cfg with
    | (t1, none) => (t1, false)
    | (t1, some intake_output) =>
      match run_risk_agent cfg intake_output with
      | (t2, none) => (t1 ++ t2, false)
      | (t2, some risk_output) =>
        match run_review_agent cfg intake_output risk_output with
        | (t3, none) => (t1 ++ (t2 ++ t3), false)
        | (t3, some _) => (t1 ++ (t2 ++ t3), true)

/-! ### Specification-side descriptions of the validators

Pure functions stating, in the spec's terms, which violations each
validator reports; the claims are settled by proving the monadic
embeddings refine these on well-shaped payloads. -/

def isContainer : JVal → Bool
  | .jarr _ => true
  | .jobj _ => true
  | _ => false

/-- Membership of a JSON value in a set of strings, as Python `==`. -/
def inStrSet (v : JVal) (set : List PyStr) : Bool :=
  match v with
  | .jstr s => set.any (fun t => t == s)
  | _ => false

/-- The missing `plan_context` subfields, per the spec. -/
def pcMissingSpec (p : List (PyStr × JVal)) : List PyStr :=
  (pcFields.filter (fun f => (lookupKV p f).isNone)).map (fun f => pcKey ++ ('.' :: f))

/-- The missing required fields of one requirement, keyed by its own
`req_id` (or the placeholder), per the spec. -/
def reqMissingSpec (r : JVal) : List PyStr :=
  match r with
  | .jobj ro =>
    (reqFields.filter (fun f => (lookupKV ro f).isNone)).map
      (fun f => pyFormat (lookupD ro ridKey (jstr unknownStr)) ++ ('.' :: f))
  | _ => []

/-- All missing-field identifiers of an Intake payload, per the spec. -/
def intakeMissingSpec (kvs : List (PyStr × JVal)) : List PyStr :=
  (match lookupKV kvs pcKey with
   | none => [pcKey]
   | some (.jobj p) => pcMissingSpec p
   | some _ => []) ++
  (match lookupKV kvs reqsKey with
   | none => [reqsKey]
   | some (.jarr rs) => (rs.map reqMissingSpec).flatten
   | some _ => [])

/-- One enumeration check of a test case, per the spec. -/
def tcEnumErrsSpec (tco : List (PyStr × JVal)) (tcid key : PyStr) (valid : List PyStr) :
    List PyStr :=
  match lookupKV tco key with
  | none => [msgMissingField tcid key]
  | some v => if inStrSet v valid then [] else [msgInvalid tcid key (pyFormat v)]

/-- The violations of one test case, per the spec. -/
def tcErrsSpec (tco : List (PyStr × JVal)) : List PyStr :=
  tcEnumErrsSpec tco (pyFormat (lookupD tco tcIdKey (jstr unknownStr))) typeKey validTypes ++
    tcEnumErrsSpec tco (pyFormat (lookupD tco tcIdKey (jstr unknownStr))) surfaceKey validSurfaces

def tcErrsSpecOf : JVal → List PyStr
  | .jobj tco => tcErrsSpec tco
  | _ => []

/-- The violations of one Risk entry, per the spec. -/
def entryErrsSpec (eo : List (PyStr × JVal)) : List PyStr :=
  (riskFields.filter (fun f => (lookupKV eo f).isNone)).map
      (fun f => msgMissingField (pyFormat (lookupD eo ridKey (jstr unknownStr))) f) ++
    (match lookupD eo tcsKey (jarr []) with
     | .jarr ts => (ts.map tcErrsSpecOf).flatten
     | _ => [])

def entryErrsSpecOf : JVal → List PyStr
  | .jobj eo => entryErrsSpec eo
  | _ => []

/-- The violations of a Risk payload that is a sequence, per the spec. -/
def riskErrsSpec (xs : List JVal) : List PyStr :=
  (xs.map entryErrsSpecOf).flatten

/-! ### Shape predicates

The typing discipline the payloads must satisfy for the validators to
touch only operations defined on them (outside it the Python code can
raise, see the C2 counterexample). -/

/-- A test case is an object whose `type` and `surface` values, when
present, are hashable (not lists or dicts). -/
def TCShaped (t : JVal) : Prop :=
  ∃ tco, t = jobj tco ∧
    (∀ v, lookupKV tco typeKey = some v → isContainer v = false) ∧
    (∀ v, lookupKV tco surfaceKey = some v → isContainer v = false)

/-- A Risk entry is an object whose `test_cases` value, when present, is a
sequence of well-shaped test cases. -/
def EntryShaped (e : JVal) : Prop :=
  ∃ eo, e = jobj eo ∧
    ∀ tv, lookupKV eo tcsKey = some tv → ∃ ts, tv = jarr ts ∧ ∀ t ∈ ts, TCShaped t

/-- A Risk payload that, if it is a sequence, consists of well-shaped
entries (non-sequences are rejected before any entry is touched). -/
def RiskShaped (d : JVal) : Prop :=
  ∀ xs, d = jarr xs → ∀ e ∈ xs, EntryShaped e

/-- An Intake payload object whose `plan_context`, when present, is an
object, and whose `requirements`, when present, is a sequence of
objects. -/
def IntakeShaped (kvs : List (PyStr × JVal)) : Prop :=
  (∀ pc, lookupKV kvs pcKey = some pc → ∃ p, pc = jobj p) ∧
  (∀ rq, lookupKV kvs reqsKey = some rq → ∃ rs, rq = jarr rs ∧ ∀ r ∈ rs, ∃ ro, r = jobj ro)

/-! ## Refinement of the Intake validator -/

instance : Inhabited JVal := ⟨jnull⟩

/-- Python key membership agrees with lookup success. -/
theorem lookup_any (kvs : List (PyStr × JVal)) (key : PyStr) :
    (kvs.any fun kv => kv.1 == key) = (lookupKV kvs key).isSome := by
  induction kvs with
  | nil => simp [lookupKV]
  | cons kv rest ih =>
    obtain ⟨k, v⟩ := kv
    simp only [List.any_cons, lookupKV]
    cases h : lookupKV rest key with
    | some w => simp [h] at ih; simp [ih]
    | none =>
      simp [h] at ih
      cases hk : (k == key)
      · simpa [hk] using ih
      · simp [hk]

theorem pcMissing_obj (p : List (PyStr × JVal)) (flds : List PyStr) :
    pcMissing (jobj p) flds =
      .ok ((flds.filter fun f => (lookupKV p f).isNone).map fun f => pcKey ++ ('.' :: f)) := by
  induction flds with
  | nil => simp [pcMissing]
  | cons f rest ih =>
    have hany := lookup_any p f
    cases hl : lookupKV p f with
    | some w =>
      rw [hl] at hany
      simp [pcMissing, pyIn, hany, ih, List.filter_cons, hl]
    | none =>
      rw [hl] at hany
      simp [pcMissing, pyIn, hany, ih, List.filter_cons, hl]

theorem reqMissing_obj (ro : List (PyStr × JVal)) (flds : List PyStr) :
    reqMissing (jobj ro) flds =
      .ok ((flds.filter fun f => (lookupKV ro f).isNone).map
        fun f => pyFormat (lookupD ro ridKey (jstr unknownStr)) ++ ('.' :: f)) := by
  induction flds with
  | nil => simp [reqMissing]
  | cons f rest ih =>
    have hany := lookup_any ro f
    cases hl : lookupKV ro f with
    | some w =>
      rw [hl] at hany
      simp [reqMissing, pyIn, hany, ih, List.filter_cons, hl]
    | none =>
      rw [hl] at hany
      simp [reqMissing, pyIn, pyGet, hany, ih, List.filter_cons, hl]

theorem reqsMissing_objs (rs : List JVal) (h : ∀ r ∈ rs, ∃ ro, r = jobj ro) :
    reqsMissing rs = .ok (rs.map reqMissingSpec).flatten := by
  induction rs with
  | nil => simp [reqsMissing]
  | cons r rest ih =>
    obtain ⟨ro, hro⟩ := h r (by simp)
    subst hro
    simp [reqsMissing, reqMissing_obj, ih (fun r hr => h r (by simp [hr])), reqMissingSpec]

theorem intakeMissingPM_shaped (kvs : List (PyStr × JVal)) (h : IntakeShaped kvs) :
    intakeMissingPM (jobj kvs) = .ok (intakeMissingSpec kvs) := by
  obtain ⟨h1, h2⟩ := h
  have hpca := lookup_any kvs pcKey
  have hrqa := lookup_any kvs reqsKey
  unfold intakeMissingPM intakeMissingSpec
  cases hpc : lookupKV kvs pcKey with
  | none =>
    rw [hpc] at hpca
    cases hrq : lookupKV kvs reqsKey with
    | none =>
      rw [hrq] at hrqa
      simp [pyIn, hpca, hrqa, hpc, hrq]
    | some rq =>
      rw [hrq] at hrqa
      obtain ⟨rs, hrs, hobjs⟩ := h2 rq hrq
      subst hrs
      simp [pyIn, pySub, pyIter, hpca, hrqa, hpc, hrq, reqsMissing_objs rs hobjs]
  | some pc =>
    rw [hpc] at hpca
    obtain ⟨p, hp⟩ := h1 pc hpc
    subst hp
    cases hrq : lookupKV kvs reqsKey with
    | none =>
      rw [hrq] at hrqa
      simp [pyIn, pySub, hpca, hrqa, hpc, hrq, pcMissing_obj, pcMissingSpec]
    | some rq =>
      rw [hrq] at hrqa
      obtain ⟨rs, hrs, hobjs⟩ := h2 rq hrq
      subst hrs
      simp [pyIn, pySub, pyIter, hpca, hrqa, hpc, hrq, pcMissing_obj, pcMissingSpec,
        reqsMissing_objs rs hobjs]

theorem validate_intake_shaped (kvs : List (PyStr × JVal)) (h : IntakeShaped kvs) :
    _validate_intake (jobj kvs) =
      if intakeMissingSpec kvs = [] then .ok else .fail (intakeMissingSpec kvs) := by
  unfold _validate_intake
  rw [intakeMissingPM_shaped kvs h]
  cases hm : intakeMissingSpec kvs <;> simp [hm]

/-! ## Refinement of the Risk validator -/

theorem entryFieldErrs_obj (rid : PyStr) (eo : List (PyStr × JVal)) (flds : List PyStr) :
    entryFieldErrs rid (jobj eo) flds =
      .ok ((flds.filter fun f => (lookupKV eo f).isNone).map fun f => msgMissingField rid f) := by
  induction flds with
  | nil => simp [entryFieldErrs]
  | cons f rest ih =>
    have hany := lookup_any eo f
    cases hl : lookupKV eo f with
    | some w =>
      rw [hl] at hany
      simp [entryFieldErrs, pyIn, hany, ih, List.filter_cons, hl]
    | none =>
      rw [hl] at hany
      simp [entryFieldErrs, pyIn, hany, ih, List.filter_cons, hl]

theorem tcEnumErrs_obj (tco : List (PyStr × JVal)) (tcid key : PyStr) (valid : List PyStr)
    (h : ∀ v, lookupKV tco key = some v → isContainer v = false) :
    tcEnumErrs (jobj tco) tcid key valid = .ok (tcEnumErrsSpec tco tcid key valid) := by
  unfold tcEnumErrs tcEnumErrsSpec
  have hany := lookup_any tco key
  cases hl : lookupKV tco key with
  | none =>
    rw [hl] at hany
    simp [pyIn, hany, hl]
  | some v =>
    rw [hl] at hany
    have hc := h v hl
    cases v with
    | jarr xs => exact absurd hc (by simp [isContainer])
    | jobj kv => exact absurd hc (by simp [isContainer])
    | jstr s =>
      cases hb : (valid.any fun t => t == s) <;>
        simp [pyIn, pySub, pyInSet, inStrSet, hany, hl, hb]
    | jnull => simp [pyIn, pySub, pyInSet, inStrSet, hany, hl]
    | jbool b => simp [pyIn, pySub, pyInSet, inStrSet, hany, hl]
    | jnum n => simp [pyIn, pySub, pyInSet, inStrSet, hany, hl]

theorem tcErrs_obj (tco : List (PyStr × JVal))
    (h1 : ∀ v, lookupKV tco typeKey = some v → isContainer v = false)
    (h2 : ∀ v, lookupKV tco surfaceKey = some v → isContainer v = false) :
    tcErrs (jobj tco) = .ok (tcErrsSpec tco) := by
  unfold tcErrs tcErrsSpec
  simp [pyGet, tcEnumErrs_obj tco _ typeKey validTypes h1,
    tcEnumErrs_obj tco _ surfaceKey validSurfaces h2]

theorem tcsErrs_shaped (ts : List JVal) (h : ∀ t ∈ ts, TCShaped t) :
    tcsErrs ts = .ok (ts.map tcErrsSpecOf).flatten := by
  induction ts with
  | nil => simp [tcsErrs]
  | cons t rest ih =>
    obtain ⟨tco, htc, h1, h2⟩ := h t (by simp)
    subst htc
    simp [tcsErrs, tcErrs_obj tco h1 h2, ih (fun t ht => h t (by simp [ht])), tcErrsSpecOf]

theorem entryErrs_shaped (eo : List (PyStr × JVal))
    (h : ∀ tv, lookupKV eo tcsKey = some tv → ∃ ts, tv = jarr ts ∧ ∀ t ∈ ts, TCShaped t) :
    entryErrs (jobj eo) = .ok (entryErrsSpec eo) := by
  unfold entryErrs entryErrsSpec
  cases hl : lookupKV eo tcsKey with
  | none =>
    simp [pyGet, lookupD, hl, pyIter, entryFieldErrs_obj, tcsErrs]
  | some tv =>
    obtain ⟨ts, hts, htcs⟩ := h tv hl
    subst hts
    simp [pyGet, lookupD, hl, pyIter, entryFieldErrs_obj, tcsErrs_shaped ts htcs]

theorem entriesErrs_shaped (xs : List JVal) (h : ∀ e ∈ xs, EntryShaped e) :
    entriesErrs xs = .ok (riskErrsSpec xs) := by
  induction xs with
  | nil => simp [entriesErrs, riskErrsSpec]
  | cons e rest ih =>
    obtain ⟨eo, heo, htcs⟩ := h e (by simp)
    subst heo
    simp [entriesErrs, entryErrs_shaped eo htcs, ih (fun e he => h e (by simp [he])),
      riskErrsSpec, entryErrsSpecOf]

theorem validate_risk_arr (xs : List JVal) (h : ∀ e ∈ xs, EntryShaped e) :
    _validate_risk (jarr xs) =
      if riskErrsSpec xs = [] then .ok else .fail (riskErrsSpec xs) := by
  show (match entriesErrs xs with
    | Except.error e => VResult.exn e
    | Except.ok errs => if errs.isEmpty = true then VResult.ok else VResult.fail errs) = _
  rw [entriesErrs_shaped xs h]
  cases hm : riskErrsSpec xs <;> simp [hm]

/-! ## Claim C3 -/

/-- C3: for every Intake payload that is a mapping (with `plan_context`,
when present, an object, and `requirements`, when present, a sequence of
objects) the validator fails exactly when required fields are missing, and
its violation list is exactly the list of missing-field identifiers —
a missing top-level `plan_context`/`requirements`, the missing
`purpose`/`in_scope`/`out_of_scope` of a present `plan_context`, and the
missing `req_id`/`prd_ref`/`ambiguity_flags` of each requirement keyed by
that requirement's `req_id` (or the placeholder `unknown`); with nothing
missing, validation succeeds. -/
theorem C3_intake_missing_exact (kvs : List (PyStr × JVal)) (h : IntakeShaped kvs) :
    _validate_intake (jobj kvs) =
      if intakeMissingSpec kvs = [] then .ok else .fail (intakeMissingSpec kvs) :=
  validate_intake_shaped kvs h

/-- An Intake payload missing `plan_context.purpose` and, in its only
requirement, `prd_ref`. -/
def c3kvs : List (PyStr × JVal) :=
  [(pcKey, jobj [("in_scope".toList, jstr "i".toList), ("out_of_scope".toList, jstr "o".toList)]),
    (reqsKey, jarr [jobj [(ridKey, jstr "R1".toList), ("ambiguity_flags".toList, jarr [])]])]

theorem C3_intake_missing_exact_witness :
    _validate_intake (jobj c3kvs) =
      VResult.fail ["plan_context.purpose".toList, "R1.prd_ref".toList] := by
  have hsh : IntakeShaped c3kvs := by
    constructor
    · intro pc h
      exact ⟨_, (Option.some.inj h).symm⟩
    · intro rq h
      refine ⟨[jobj [(ridKey, jstr "R1".toList), ("ambiguity_flags".toList, jarr [])]],
        (Option.some.inj h).symm, ?_⟩
      intro r hr
      rw [List.mem_singleton] at hr
      exact ⟨_, hr⟩
  rw [C3_intake_missing_exact c3kvs hsh]
  rfl

/-! ## Claim C4 -/

/-- C4: a Risk payload whose top level is not a sequence fails immediately
with the single wrong-top-level-shape violation and nothing else; when the
top level is a sequence (of well-shaped entries) the result is instead
determined by the accumulated per-entry and per-test-case violations. -/
theorem C4_risk_top_shape :
    (∀ d : JVal, (∀ xs, d ≠ jarr xs) → _validate_risk d = .fail [riskShapeMsg]) ∧
    (∀ xs, (∀ e ∈ xs, EntryShaped e) →
      _validate_risk (jarr xs) =
        if riskErrsSpec xs = [] then .ok else .fail (riskErrsSpec xs)) := by
  constructor
  · intro d h
    cases d with
    | jarr xs => exact absurd rfl (h xs)
    | jnull => rfl
    | jbool b => rfl
    | jnum n => rfl
    | jstr s => rfl
    | jobj kvs => rfl
  · exact validate_risk_arr

theorem C4_risk_top_shape_witness :
    _validate_risk (jobj [(ridKey, jstr "R1".toList)]) = VResult.fail [riskShapeMsg] ∧
      _validate_risk (jarr []) = VResult.ok := by
  constructor
  · exact C4_risk_top_shape.1 _ (fun xs h => JVal.noConfusion h)
  · rw [C4_risk_top_shape.2 [] (fun e he => absurd he (List.not_mem_nil e))]
    rfl

/-! ## Claim C5 -/

/-- C5: in a test case object whose `type` is present but outside the
closed enumeration, the type check contributes exactly one violation,
naming the test case's `tc_id` (or the placeholder `unknown`) and the
invalid value; a test case whose `type` and `surface` are both present and
within their enumerations contributes no violation at all. -/
theorem C5_tc_enum :
    (∀ (tco : List (PyStr × JVal)) (tv : PyStr),
      lookupKV tco typeKey = some (jstr tv) →
      (validTypes.any fun t => t == tv) = false →
      (∀ v, lookupKV tco surfaceKey = some v → isContainer v = false) →
      tcErrs (jobj tco) =
        .ok (msgInvalid (pyFormat (lookupD tco tcIdKey (jstr unknownStr))) typeKey tv ::
          tcEnumErrsSpec tco (pyFormat (lookupD tco tcIdKey (jstr unknownStr)))
            surfaceKey validSurfaces)) ∧
    (∀ (tco : List (PyStr × JVal)) (tv sv : PyStr),
      lookupKV tco typeKey = some (jstr tv) →
      (validTypes.any fun t => t == tv) = true →
      lookupKV tco surfaceKey = some (jstr sv) →
      (validSurfaces.any fun t => t == sv) = true →
      tcErrs (jobj tco) = .ok []) := by
  constructor
  · intro tco tv hty hnv hsurf
    have h1 : ∀ v, lookupKV tco typeKey = some v → isContainer v = false := by
      intro v hv
      rw [hty] at hv
      cases hv
      rfl
    rw [tcErrs_obj tco h1 hsurf]
    simp [tcErrsSpec, tcEnumErrsSpec, hty, inStrSet, hnv, pyFormat]
  · intro tco tv sv hty htv hsf hsv
    have h1 : ∀ v, lookupKV tco typeKey = some v → isContainer v = false := by
      intro v hv
      rw [hty] at hv
      cases hv
      rfl
    have h2 : ∀ v, lookupKV tco surfaceKey = some v → isContainer v = false := by
      intro v hv
      rw [hsf] at hv
      cases hv
      rfl
    rw [tcErrs_obj tco h1 h2]
    simp [tcErrsSpec, tcEnumErrsSpec, hty, hsf, inStrSet, htv, hsv]

/-- A test case with `type="bogus"` and a valid surface, and one fully
valid test case. -/
def c5bogus : List (PyStr × JVal) :=
  [(tcIdKey, jstr "TC7".toList), (typeKey, jstr "bogus".toList), (surfaceKey, jstr "ui".toList)]

def c5valid : List (PyStr × JVal) :=
  [(tcIdKey, jstr "TC8".toList), (typeKey, jstr "e2e".toList), (surfaceKey, jstr "api".toList)]

theorem C5_tc_enum_witness :
    tcErrs (jobj c5bogus) = .ok ["TC7: invalid type \x27bogus\x27".toList] ∧
      tcErrs (jobj c5valid) = .ok [] := by
  constructor
  · rw [C5_tc_enum.1 c5bogus "bogus".toList rfl rfl
      (fun v hv => by rw [(Option.some.inj hv).symm]; rfl)]
    rfl
  · exact C5_tc_enum.2 c5valid "e2e".toList "api".toList rfl rfl rfl rfl

/-! ## Claim C2 -/

/-- C2 (amended): on payloads matching the shapes the validators expect —
an Intake mapping whose `plan_context` (when present) is an object and
whose `requirements` (when present) is a sequence of objects; a Risk
payload whose entries (when it is a sequence) are objects with `test_cases`
(when present) a sequence of objects with hashable `type`/`surface`; any
text for the Review validator — each validator completes its scan without
an uncaught exception and either succeeds or fails once with a non-empty
violation list. -/
theorem C2_validators_total :
    (∀ kvs, IntakeShaped kvs → (_validate_intake (jobj kvs)).clean = true) ∧
    (∀ d, RiskShaped d → (_validate_risk d).clean = true) ∧
    (∀ content, (_validate_review content).clean = true) := by
  refine ⟨?_, ?_, ?_⟩
  · intro kvs h
    rw [validate_intake_shaped kvs h]
    cases hm : intakeMissingSpec kvs <;> simp [hm, VResult.clean]
  · intro d h
    cases d with
    | jarr xs =>
      rw [validate_risk_arr xs (h xs rfl)]
      cases hm : riskErrsSpec xs <;> simp [hm, VResult.clean]
    | jnull => rfl
    | jbool b => rfl
    | jnum n => rfl
    | jstr s => rfl
    | jobj kvs => rfl
  · intro content
    unfold _validate_review
    cases hm : (requiredSections.filter fun s => !(isSubstr s content)).isEmpty <;>
      simp [hm, VResult.clean]

/-- C2 counterexample: the claim as stated (the validators never raise on
any JSON sequence) is false — on the sequence `[5]` the Risk validator
raises `AttributeError` at `entry.get("req_id", "unknown")` instead of
reporting violations. -/
theorem C2_validators_total_counterexample :
    _validate_risk (jarr [jnum 5]) = VResult.exn attributeError := rfl

theorem C2_validators_total_witness :
    (_validate_intake (jobj [])).clean = true ∧
      (_validate_risk (jarr [])).clean = true ∧
      (_validate_review "x".toList).clean = true := by
  refine ⟨C2_validators_total.1 [] ⟨?_, ?_⟩, C2_validators_total.2.1 (jarr []) ?_,
    C2_validators_total.2.2 _⟩
  · intro pc h
    exact absurd h (by simp [lookupKV])
  · intro rq h
    exact absurd h (by simp [lookupKV])
  · intro xs h e he
    cases h
    exact absurd he (List.not_mem_nil e)

/-! ## Claim C8 -/

/-- C8: the Review validator succeeds exactly when all four literal
section markers occur as substrings of the document, in any order and with
arbitrary surrounding content; on failure the reported list is exactly the
absent markers, in particular a document missing only `## Review Decision`
fails naming exactly that section. -/
theorem C8_review_sections :
    (∀ content, _validate_review content = .ok ↔
      ∀ s ∈ requiredSections, isSubstr s content = true) ∧
    (∀ content, _validate_review content = .ok ∨
      _validate_review content =
        .fail (requiredSections.filter fun s => !(isSubstr s content))) ∧
    _validate_review "## Purpose\nx\n## In Scope\ny\n## Out of Scope\nz\n".toList =
      .fail ["## Review Decision".toList] := by
  refine ⟨?_, ?_, rfl⟩
  · intro content
    simp only [_validate_review]
    cases he : (requiredSections.filter fun s => !(isSubstr s content)).isEmpty
    · have hne : ¬ (requiredSections.filter fun s => !(isSubstr s content)) = [] := by
        intro h0
        rw [h0] at he
        exact Bool.noConfusion he
      rw [List.filter_eq_nil_iff] at hne
      push_neg at hne
      have hnall : ¬ ∀ s ∈ requiredSections, isSubstr s content = true := by
        intro hall
        obtain ⟨s, hs, hns⟩ := hne
        simp [hall s hs] at hns
      simp [he, hnall]
    · have h0 : (requiredSections.filter fun s => !(isSubstr s content)) = [] := by
        rwa [List.isEmpty_iff] at he
      rw [List.filter_eq_nil_iff] at h0
      have hall : ∀ s ∈ requiredSections, isSubstr s content = true := by
        intro s hs
        have := h0 s hs
        simpa using this
      simp only [he, if_pos rfl]
      simpa using hall
  · intro content
    simp only [_validate_review]
    cases he : (requiredSections.filter fun s => !(isSubstr s content)).isEmpty
    · simp
    · simp

theorem C8_review_sections_witness :
    _validate_review
      "intro\n## Review Decision\nGO\n## Out of Scope\n## In Scope\n## Purpose\n".toList =
        .ok :=
  (C8_review_sections.1 _).mpr (by decide)

/-! ## String lemmas for the sanitizer -/

def stripL (s : PyStr) : PyStr := s.dropWhile isPySpace

def stripR (s : PyStr) : PyStr := (s.reverse.dropWhile isPySpace).reverse

theorem pyStrip_eq (s : PyStr) : pyStrip s = stripR (stripL s) := rfl

theorem dropWhile_append_all {p : Char → Bool} (ws t : List Char)
    (h : ∀ c ∈ ws, p c = true) : (ws ++ t).dropWhile p = t.dropWhile p := by
  induction ws with
  | nil => rfl
  | cons a r ih =>
    have ha := h a (by simp)
    simp [List.dropWhile_cons, ha, ih (fun c hc => h c (by simp [hc]))]

theorem dropWhile_append_cases (p : Char → Bool) (P ws : List Char) :
    (P ++ ws).dropWhile p =
      if (P.dropWhile p).isEmpty then ws.dropWhile p else P.dropWhile p ++ ws := by
  induction P with
  | nil => simp
  | cons a t ih =>
    cases hpa : p a <;> simp [List.dropWhile_cons, hpa, ih]

theorem stripL_append_ws (ws t : PyStr) (h : ∀ c ∈ ws, isPySpace c = true) :
    stripL (ws ++ t) = stripL t :=
  dropWhile_append_all ws t h

theorem stripR_append_ws (t ws : PyStr) (h : ∀ c ∈ ws, isPySpace c = true) :
    stripR (t ++ ws) = stripR t := by
  unfold stripR
  rw [List.reverse_append, dropWhile_append_all _ _ (fun c hc => h c (by simpa using hc))]

theorem strip_append_ws (ws1 P ws2 : PyStr) (h1 : ∀ c ∈ ws1, isPySpace c = true)
    (h2 : ∀ c ∈ ws2, isPySpace c = true) : pyStrip (ws1 ++ P ++ ws2) = pyStrip P := by
  rw [pyStrip_eq, pyStrip_eq, List.append_assoc, stripL_append_ws ws1 _ h1]
  unfold stripL
  rw [dropWhile_append_cases]
  cases he : (P.dropWhile isPySpace).isEmpty
  · rw [if_neg (by simp [he])]
    exact stripR_append_ws _ _ h2
  · rw [if_pos rfl, List.isEmpty_iff.mp he,
      List.dropWhile_eq_nil_iff.mpr (fun a ha => by simp [h2 a ha])]

theorem strip_of_ends (a b : Char) (mid : PyStr) (ha : isPySpace a = false)
    (hb : isPySpace b = false) : pyStrip (a :: (mid ++ [b])) = a :: (mid ++ [b]) := by
  rw [pyStrip_eq]
  unfold stripL
  rw [List.dropWhile_cons, if_neg (by simp [ha])]
  unfold stripR
  rw [show (a :: (mid ++ [b])).reverse = b :: (mid.reverse ++ [a]) by simp]
  rw [List.dropWhile_cons, if_neg (by simp [hb])]
  simp

theorem stripPre_append (pre t : PyStr) : stripPre (pre ++ t) pre = t := by
  unfold stripPre
  rw [if_pos (List.isPrefixOf_iff_prefix.mpr (List.prefix_append pre t))]
  exact List.drop_left pre t

theorem stripPre_not (s pre : PyStr) (h : ¬ pre <+: s) : stripPre s pre = s := by
  unfold stripPre
  rw [if_neg (fun hb => h (List.isPrefixOf_iff_prefix.mp hb))]

theorem stripSuf_append (t suf : PyStr) : stripSuf (t ++ suf) suf = t := by
  unfold stripSuf
  rw [if_pos (List.isSuffixOf_iff_suffix.mpr ⟨t, rfl⟩), List.length_append,
    show t.length + suf.length - suf.length = t.length from by omega]
  exact List.take_left t suf

theorem stripSuf_not (s suf : PyStr) (h : ¬ suf <:+ s) : stripSuf s suf = s := by
  unfold stripSuf
  rw [if_neg (fun hb => h (List.isSuffixOf_iff_suffix.mp hb))]

theorem isSubstr_iff (pat s : PyStr) : isSubstr pat s = true ↔ pat <:+: s := by
  induction s with
  | nil => simp [isSubstr, List.isEmpty_iff]
  | cons c rest ih =>
    simp [isSubstr, List.infix_cons_iff, ih, List.isPrefixOf_iff_prefix]

theorem stripR_prefix_self (x : PyStr) : stripR x <+: x := by
  have h : x.reverse.dropWhile isPySpace <:+ x.reverse := List.dropWhile_suffix _
  have h2 := List.reverse_prefix.mpr h
  simpa [stripR] using h2

theorem strip_infix (s : PyStr) : pyStrip s <:+: s :=
  (stripR_prefix_self (stripL s)).isInfix.trans (List.dropWhile_suffix _).isInfix

theorem dropWhile_head_false {p : Char → Bool} {l t : List Char} {a : Char}
    (h : l.dropWhile p = a :: t) : p a = false := by
  induction l with
  | nil => exact absurd h (by simp)
  | cons b r ih =>
    rw [List.dropWhile_cons] at h
    by_cases hb : p b
    · rw [if_pos hb] at h
      exact ih h
    · rw [if_neg hb] at h
      cases h
      exact Bool.eq_false_iff.mpr hb

theorem dropWhile_idem (p : Char → Bool) (l : List Char) :
    (l.dropWhile p).dropWhile p = l.dropWhile p := by
  cases h : l.dropWhile p with
  | nil => rfl
  | cons a t => rw [List.dropWhile_cons, if_neg (by simp [dropWhile_head_false h])]

theorem length_dropWhile_le' (p : Char → Bool) (l : List Char) :
    (l.dropWhile p).length ≤ l.length := by
  induction l with
  | nil => simp
  | cons a t ih =>
    rw [List.dropWhile_cons]
    by_cases ha : p a
    · rw [if_pos ha]
      simp only [List.length_cons]
      omega
    · rw [if_neg ha]

theorem stripL_idem (s : PyStr) : stripL (stripL s) = stripL s :=
  dropWhile_idem isPySpace s

theorem stripR_idem (s : PyStr) : stripR (stripR s) = stripR s := by
  unfold stripR
  rw [List.reverse_reverse, dropWhile_idem]

theorem stripL_prefix_pres {x y : PyStr} (hy : stripL y = y) (hx : x <+: y) :
    stripL x = x := by
  cases y with
  | nil => rw [List.prefix_nil.mp hx]; rfl
  | cons a t =>
    have ha : isPySpace a = false := by
      by_contra hc
      have ha' : isPySpace a = true := by simpa using hc
      unfold stripL at hy
      rw [List.dropWhile_cons, if_pos (by simp [ha'])] at hy
      have hlen := congrArg List.length hy
      have hle := length_dropWhile_le' isPySpace t
      simp at hlen
      omega
    cases x with
    | nil => rfl
    | cons b u =>
      obtain ⟨w, hw⟩ := hx
      have hb : b = a := by
        simpa using congrArg (fun l => l.head?) hw
      subst hb
      unfold stripL
      rw [List.dropWhile_cons, if_neg (by simp [ha])]

theorem strip_idem (s : PyStr) : pyStrip (pyStrip s) = pyStrip s := by
  rw [pyStrip_eq, pyStrip_eq,
    stripL_prefix_pres (stripL_idem s) (stripR_prefix_self (stripL s))]
  exact stripR_idem _

/-- When the input contains no fence marker, the sanitizer is exactly a
whitespace trim. -/
theorem sanitize_no_fence (s : PyStr) (h : isSubstr fence3 s = false) :
    sanitize s = pyStrip s := by
  have hnf : ¬ fence3 <:+: s := by
    intro hc
    rw [(isSubstr_iff fence3 s).mpr hc] at h
    exact Bool.noConfusion h
  have hstrip : pyStrip s <:+: s := strip_infix s
  have hpre3 : ¬ fence3 <+: pyStrip s := fun hc => hnf (hc.isInfix.trans hstrip)
  have hprej : ¬ fenceJson <+: pyStrip s := fun hc =>
    hpre3 ((show fence3 <+: fenceJson by decide).trans hc)
  have hsuf : ¬ fence3 <:+ pyStrip s := fun hc => hnf (hc.isInfix.trans hstrip)
  unfold sanitize
  rw [stripPre_not _ _ hprej, stripPre_not _ _ hpre3, stripSuf_not _ _ hsuf, strip_idem]

/-- Sanitizing a fenced payload with arbitrary surrounding whitespace
yields exactly the stripped payload. -/
theorem sanitize_wrapped (P ws1 ws2 : PyStr) (h1 : ∀ c ∈ ws1, isPySpace c = true)
    (h2 : ∀ c ∈ ws2, isPySpace c = true) :
    sanitize (ws1 ++ (fenceJson ++ ('\n' :: (P ++ ('\n' :: fence3)))) ++ ws2) = pyStrip P := by
  have hfj : fenceJson = '\x60' :: '\x60' :: '\x60' :: 'j' :: 's' :: 'o' :: 'n' :: [] := rfl
  have hf3 : fence3 = ['\x60', '\x60', '\x60'] := rfl
  unfold sanitize
  rw [strip_append_ws ws1 _ ws2 h1 h2]
  have hsW : pyStrip (fenceJson ++ ('\n' :: (P ++ ('\n' :: fence3)))) =
      fenceJson ++ ('\n' :: (P ++ ('\n' :: fence3))) := by
    have hW : fenceJson ++ ('\n' :: (P ++ ('\n' :: fence3))) =
        '\x60' :: ((('\x60' :: '\x60' :: 'j' :: 's' :: 'o' :: 'n' :: '\n' :: P) ++
          ['\n', '\x60', '\x60']) ++ ['\x60']) := by
      rw [hfj, hf3]
      simp
    rw [hW]
    exact strip_of_ends _ _ _ (by decide) (by decide)
  rw [hsW, stripPre_append fenceJson _]
  rw [stripPre_not _ fence3 (by rintro ⟨w, hw⟩; rw [hf3] at hw; simp at hw)]
  rw [show ('\n' :: (P ++ ('\n' :: fence3))) = ('\n' :: (P ++ ['\n'])) ++ fence3 by simp]
  rw [stripSuf_append]
  rw [show ('\n' :: (P ++ ['\n'])) = ['\n'] ++ P ++ ['\n'] by simp]
  exact strip_append_ws _ _ _ (by decide) (by decide)

/-! ## Claim C6 -/

/-- C6 (amended): for every payload text `P` containing no fence marker,
sanitizing the text wrapped in a tagged fence (with arbitrary surrounding
whitespace) gives the same text — hence the same decode — as sanitizing
the bare payload, and on every fence-free input the sanitizer is a no-op
beyond whitespace trimming. -/
theorem C6_sanitize_fence :
    (∀ s, isSubstr fence3 s = false → sanitize s = pyStrip s) ∧
    (∀ P ws1 ws2, (∀ c ∈ ws1, isPySpace c = true) → (∀ c ∈ ws2, isPySpace c = true) →
      isSubstr fence3 P = false →
      sanitize (ws1 ++ (fenceJson ++ ('\n' :: (P ++ ('\n' :: fence3)))) ++ ws2) = sanitize P ∧
      parse_json_output (ws1 ++ (fenceJson ++ ('\n' :: (P ++ ('\n' :: fence3)))) ++ ws2) =
        parse_json_output P) := by
  refine ⟨sanitize_no_fence, ?_⟩
  intro P ws1 ws2 h1 h2 hP
  have hw := sanitize_wrapped P ws1 ws2 h1 h2
  have hp := sanitize_no_fence P hP
  refine ⟨by rw [hw, hp], ?_⟩
  unfold parse_json_output
  rw [hw, hp]

/-- A payload that itself carries a fence. -/
def c6payload : PyStr := "\x60\x60\x60json\n\x7b\x7d\n\x60\x60\x60".toList

/-- C6 counterexample: for the fence-carrying payload, wrapping changes
the decode — the wrapped text fails to decode while the bare payload
decodes to the empty object — so the claim's universal quantification
over every payload text is false. -/
theorem C6_sanitize_fence_counterexample :
    parse_json_output (fenceJson ++ ('\n' :: (c6payload ++ ('\n' :: fence3)))) = none ∧
      parse_json_output c6payload = some (jobj []) ∧
      ¬ parse_json_output (fenceJson ++ ('\n' :: (c6payload ++ ('\n' :: fence3)))) =
        parse_json_output c6payload := by
  refine ⟨rfl, rfl, ?_⟩
  intro h
  exact Option.noConfusion h

def c6clean : PyStr := "\x7b\"a\": 1\x7d".toList

theorem C6_sanitize_fence_witness :
    sanitize (" ".toList ++ (fenceJson ++ ('\n' :: (c6clean ++ ('\n' :: fence3)))) ++
        " ".toList) = sanitize c6clean ∧
      parse_json_output (" ".toList ++ (fenceJson ++ ('\n' :: (c6clean ++ ('\n' :: fence3)))) ++
        " ".toList) = parse_json_output c6clean :=
  C6_sanitize_fence.2 c6clean " ".toList " ".toList (by decide) (by decide) (by decide)

/-! ## Trace shape of the three stages -/

theorem run_intake_none (cfg : Config) (h : cfg.intakePrompt = none) :
    run_intake_agent cfg = ([], none) := by
  unfold run_intake_agent
  rw [h]

theorem run_risk_none (cfg : Config) (io : JVal) (h : cfg.riskPrompt = none) :
    run_risk_agent cfg io = ([], none) := by
  unfold run_risk_agent
  rw [h]

theorem run_review_none (cfg : Config) (io ro : JVal) (h : cfg.reviewPrompt = none) :
    run_review_agent cfg io ro = ([], none) := by
  unfold run_review_agent
  rw [h]

theorem run_intake_shape (cfg : Config) :
    (run_intake_agent cfg).1 <+: [Event.gatewayCall .intake, Event.persist .intake] ∧
    (∀ v, (run_intake_agent cfg).2 = some v →
      (run_intake_agent cfg).1 = [Event.gatewayCall .intake, Event.persist .intake]) ∧
    ((run_intake_agent cfg).2 = none →
      (run_intake_agent cfg).1 <+: [Event.gatewayCall .intake]) := by
  unfold run_intake_agent
  split
  · exact ⟨List.nil_prefix, by simp, fun _ => List.nil_prefix⟩
  · split
    · exact ⟨List.nil_prefix, by simp, fun _ => List.nil_prefix⟩
    · split
      · exact ⟨⟨[Event.persist .intake], rfl⟩, by simp, fun _ => List.prefix_refl _⟩
      · split
        · exact ⟨List.prefix_refl _, by simp, by simp⟩
        · exact ⟨⟨[Event.persist .intake], rfl⟩, by simp, fun _ => List.prefix_refl _⟩

theorem run_risk_shape (cfg : Config) (io : JVal) :
    (run_risk_agent cfg io).1 <+: [Event.gatewayCall .risk, Event.persist .risk] ∧
    (∀ v, (run_risk_agent cfg io).2 = some v →
      (run_risk_agent cfg io).1 = [Event.gatewayCall .risk, Event.persist .risk]) ∧
    ((run_risk_agent cfg io).2 = none →
      (run_risk_agent cfg io).1 <+: [Event.gatewayCall .risk]) := by
  unfold run_risk_agent
  split
  · exact ⟨List.nil_prefix, by simp, fun _ => List.nil_prefix⟩
  · split
    · exact ⟨List.nil_prefix, by simp, fun _ => List.nil_prefix⟩
    · split
      · exact ⟨⟨[Event.persist .risk], rfl⟩, by simp, fun _ => List.prefix_refl _⟩
      · split
        · exact ⟨List.prefix_refl _, by simp, by simp⟩
        · exact ⟨⟨[Event.persist .risk], rfl⟩, by simp, fun _ => List.prefix_refl _⟩

theorem run_review_shape (cfg : Config) (io ro : JVal) :
    (run_review_agent cfg io ro).1 <+: [Event.gatewayCall .review, Event.persist .review] ∧
    (∀ v, (run_review_agent cfg io ro).2 = some v →
      (run_review_agent cfg io ro).1 =
        [Event.gatewayCall .review, Event.persist .review]) ∧
    ((run_review_agent cfg io ro).2 = none →
      (run_review_agent cfg io ro).1 <+: [Event.gatewayCall .review]) := by
  unfold run_review_agent
  split
  · exact ⟨List.nil_prefix, by simp, fun _ => List.nil_prefix⟩
  · split
    · exact ⟨List.prefix_refl _, by simp, by simp⟩
    · exact ⟨⟨[Event.persist .review], rfl⟩, by simp, fun _ => List.prefix_refl _⟩

/-- A member of a stage trace is a member of that stage's full trace. -/
theorem not_mem_of_pre {l L : List Event} {c : Event} (h : l <+: L) (hn : c ∉ L) :
    c ∉ l := fun hc => hn (h.subset hc)

/-- The Intake validator cannot succeed on an object lacking
`requirements`. -/
theorem validate_intake_noreq (kvs : List (PyStr × JVal))
    (h : lookupKV kvs reqsKey = none) : _validate_intake (jobj kvs) ≠ .ok := by
  have hrq : (kvs.any fun kv => kv.1 == reqsKey) = false := by
    rw [lookup_any, h]
    rfl
  unfold _validate_intake intakeMissingPM
  simp only [pyIn]
  cases hbpc : (kvs.any fun kv => kv.1 == pcKey)
  · simp [hbpc, hrq]
  · simp only [hbpc, hrq]
    cases hsub : pySub (jobj kvs) pcKey with
    | error e => simp [hsub]
    | ok pc =>
      cases hpcm : pcMissing pc pcFields with
      | error e => simp [hsub, hpcm]
      | ok p1 =>
        have hne : (p1 ++ [reqsKey]).isEmpty = false := by simp
        simp [hsub, hpcm, hne]

/-- A successful Intake stage returns exactly the decoded model output,
and that output passed validation. -/
theorem run_intake_success (cfg : Config) (v : JVal)
    (h : (run_intake_agent cfg).2 = some v) :
    parse_json_output (cfg.oracle .intake) = some v ∧ _validate_intake v = .ok := by
  unfold run_intake_agent at h
  split at h
  · exact absurd h (by simp)
  · split at h
    · exact absurd h (by simp)
    · split at h
      · exact absurd h (by simp)
      · split at h
        · simp at h
          subst h
          exact ⟨by assumption, by assumption⟩
        · exact absurd h (by simp)

/-- The orchestrator's four possible courses: credential failure, Intake
failure, Risk failure after Intake success, or a completed Review stage. -/
theorem runPipeline_cases (cfg : Config) :
    (runPipeline cfg = ([], false) ∧ cfg.apiKey = none) ∨
    (∃ t1, run_intake_agent cfg = (t1, none) ∧ runPipeline cfg = (t1, false)) ∨
    (∃ t1 io t2, run_intake_agent cfg = (t1, some io) ∧
      run_risk_agent cfg io = (t2, none) ∧ runPipeline cfg = (t1 ++ t2, false)) ∨
    (∃ t1 io t2 ro t3 rr, run_intake_agent cfg = (t1, some io) ∧
      run_risk_agent cfg io = (t2, some ro) ∧ run_review_agent cfg io ro = (t3, rr) ∧
      runPipeline cfg = (t1 ++ (t2 ++ t3), rr.isSome)) := by
  cases hak : cfg.apiKey with
  | none => exact Or.inl ⟨by unfold runPipeline; rw [hak], rfl⟩
  | some key =>
    cases hint : run_intake_agent cfg with
    | mk t1 r1 =>
      cases r1 with
      | none =>
        refine Or.inr (Or.inl ⟨t1, rfl, ?_⟩)
        unfold runPipeline
        simp only [hak, hint]
      | some io =>
        cases hrisk : run_risk_agent cfg io with
        | mk t2 r2 =>
          cases r2 with
          | none =>
            refine Or.inr (Or.inr (Or.inl ⟨t1, io, t2, rfl, hrisk, ?_⟩))
            unfold runPipeline
            simp only [hak, hint, hrisk]
          | some ro =>
            cases hrev : run_review_agent cfg io ro with
            | mk t3 rr =>
              refine Or.inr (Or.inr (Or.inr ⟨t1, io, t2, ro, t3, rr, rfl, hrisk, hrev, ?_⟩))
              unfold runPipeline
              simp only [hak, hint, hrisk, hrev]
              cases rr <;> rfl

/-! ## Claim C7 -/

/-- C7: when the Intake stage's decoded output lacks `requirements`, the
run halts at Intake validation — no Risk Gateway call occurs and no
artifact (Intake, Risk or Review) is ever persisted; conversely, whenever
a later stage's Gateway call appears in the trace, the earlier stages'
artifacts were persisted strictly before it. -/
theorem C7_halt_and_persist_order :
    (∀ (cfg : Config) (kvs : List (PyStr × JVal)),
      parse_json_output (cfg.oracle .intake) = some (jobj kvs) →
      lookupKV kvs reqsKey = none →
      Event.gatewayCall .risk ∉ (runPipeline cfg).1 ∧
      Event.persist .intake ∉ (runPipeline cfg).1 ∧
      Event.persist .risk ∉ (runPipeline cfg).1 ∧
      Event.persist .review ∉ (runPipeline cfg).1) ∧
    (∀ cfg : Config, Event.gatewayCall .risk ∈ (runPipeline cfg).1 →
      ∃ l₁ l₂, (runPipeline cfg).1 = l₁ ++ l₂ ∧ Event.persist .intake ∈ l₁ ∧
        Event.gatewayCall .risk ∈ l₂ ∧ Event.gatewayCall .risk ∉ l₁) ∧
    (∀ cfg : Config, Event.gatewayCall .review ∈ (runPipeline cfg).1 →
      ∃ l₁ l₂, (runPipeline cfg).1 = l₁ ++ l₂ ∧ Event.persist .intake ∈ l₁ ∧
        Event.persist .risk ∈ l₁ ∧ Event.gatewayCall .review ∈ l₂ ∧
        Event.gatewayCall .review ∉ l₁) := by
  refine ⟨?_, ?_, ?_⟩
  · intro cfg kvs hp hr
    have hnone : (run_intake_agent cfg).2 = none := by
      cases hio : (run_intake_agent cfg).2 with
      | none => rfl
      | some v =>
        obtain ⟨hpv, hvv⟩ := run_intake_success cfg v hio
        rw [hp] at hpv
        obtain rfl : jobj kvs = v := by simpa using hpv
        exact absurd hvv (validate_intake_noreq kvs hr)
    rcases runPipeline_cases cfg with ⟨hrp, _⟩ | ⟨t1, hint, hrp⟩ |
      ⟨t1, io, t2, hint, _, _⟩ | ⟨t1, io, t2, ro, t3, rr, hint, _, _, _⟩
    · rw [hrp]
      simp
    · rw [hrp]
      have hpre : t1 <+: [Event.gatewayCall .intake] := by
        have := (run_intake_shape cfg).2.2 hnone
        rwa [hint] at this
      exact ⟨not_mem_of_pre hpre (by decide), not_mem_of_pre hpre (by decide),
        not_mem_of_pre hpre (by decide), not_mem_of_pre hpre (by decide)⟩
    · rw [hint] at hnone
      exact absurd hnone (by simp)
    · rw [hint] at hnone
      exact absurd hnone (by simp)
  · intro cfg hmem
    rcases runPipeline_cases cfg with ⟨hrp, _⟩ | ⟨t1, hint, hrp⟩ |
      ⟨t1, io, t2, hint, hrisk, hrp⟩ | ⟨t1, io, t2, ro, t3, rr, hint, hrisk, hrev, hrp⟩
    · rw [hrp] at hmem
      simp at hmem
    · rw [hrp] at hmem
      have hpre : t1 <+: [Event.gatewayCall .intake, Event.persist .intake] := by
        have := (run_intake_shape cfg).1
        rwa [hint] at this
      exact absurd (hpre.subset hmem) (by decide)
    · have ht1 : t1 = [Event.gatewayCall .intake, Event.persist .intake] := by
        have := (run_intake_shape cfg).2.1 io
        rw [hint] at this
        exact this rfl
      rw [hrp] at hmem ⊢
      refine ⟨t1, t2, rfl, by rw [ht1]; decide, ?_, by rw [ht1]; decide⟩
      rcases List.mem_append.mp hmem with h | h
      · rw [ht1] at h
        exact absurd h (by decide)
      · exact h
    · have ht1 : t1 = [Event.gatewayCall .intake, Event.persist .intake] := by
        have := (run_intake_shape cfg).2.1 io
        rw [hint] at this
        exact this rfl
      have ht2 : t2 = [Event.gatewayCall .risk, Event.persist .risk] := by
        have := (run_risk_shape cfg io).2.1 ro
        rw [hrisk] at this
        exact this rfl
      rw [hrp]
      exact ⟨t1, t2 ++ t3, rfl, by rw [ht1]; decide,
        by rw [ht2]; simp, by rw [ht1]; decide⟩
  · intro cfg hmem
    rcases runPipeline_cases cfg with ⟨hrp, _⟩ | ⟨t1, hint, hrp⟩ |
      ⟨t1, io, t2, hint, hrisk, hrp⟩ | ⟨t1, io, t2, ro, t3, rr, hint, hrisk, hrev, hrp⟩
    · rw [hrp] at hmem
      simp at hmem
    · rw [hrp] at hmem
      have hpre : t1 <+: [Event.gatewayCall .intake, Event.persist .intake] := by
        have := (run_intake_shape cfg).1
        rwa [hint] at this
      exact absurd (hpre.subset hmem) (by decide)
    · rw [hrp] at hmem
      have hpre1 : t1 <+: [Event.gatewayCall .intake, Event.persist .intake] := by
        have := (run_intake_shape cfg).1
        rwa [hint] at this
      have hpre2 : t2 <+: [Event.gatewayCall .risk, Event.persist .risk] := by
        have := (run_risk_shape cfg io).1
        rwa [hrisk] at this
      rcases List.mem_append.mp hmem with h | h
      · exact absurd (hpre1.subset h) (by decide)
      · exact absurd (hpre2.subset h) (by decide)
    · have ht1 : t1 = [Event.gatewayCall .intake, Event.persist .intake] := by
        have := (run_intake_shape cfg).2.1 io
        rw [hint] at this
        exact this rfl
      have ht2 : t2 = [Event.gatewayCall .risk, Event.persist .risk] := by
        have := (run_risk_shape cfg io).2.1 ro
        rw [hrisk] at this
        exact this rfl
      rw [hrp] at hmem ⊢
      refine ⟨t1 ++ t2, t3, (List.append_assoc t1 t2 t3).symm,
        by rw [ht1, ht2]; decide, by rw [ht1, ht2]; decide, ?_, by rw [ht1, ht2]; decide⟩
      rcases List.mem_append.mp hmem with h | h
      · rw [ht1] at h
        exact absurd h (by decide)
      · rcases List.mem_append.mp h with h2 | h2
        · rw [ht2] at h2
          exact absurd h2 (by decide)
        · exact h2

/-- A run whose Intake output decodes to the empty object (which lacks
`requirements`). -/
def cfgC7 : Config where
  apiKey := some "k".toList
  intakePrompt := some "intake".toList
  riskPrompt := some "risk".toList
  reviewPrompt := some "review".toList
  prd := some "doc".toList
  oracle := fun s =>
    match s with
    | .intake => "\x7b\x7d".toList
    | _ => []
  folderName := "prd_clean_agile".toList
  today := "2026-10-12".toList

theorem C7_halt_and_persist_order_witness :
    Event.gatewayCall .risk ∉ (runPipeline cfgC7).1 ∧
      Event.persist .intake ∉ (runPipeline cfgC7).1 ∧
      Event.persist .risk ∉ (runPipeline cfgC7).1 ∧
      Event.persist .review ∉ (runPipeline cfgC7).1 :=
  C7_halt_and_persist_order.1 cfgC7 [] rfl rfl

/-! ## Claim C1 -/

/-- C1 (amended): a missing stage instruction template makes the run fail
before that stage's Gateway call — but the check happens only when the
stage itself starts, not pre-execution: a missing Risk template stops the
run before the Risk Gateway call and before the Risk/Review artifacts, but
only after the Intake stage has fully run. -/
theorem C1_missing_template (cfg : Config) :
    (cfg.intakePrompt = none → (runPipeline cfg).2 = false ∧
      Event.gatewayCall .intake ∉ (runPipeline cfg).1) ∧
    (cfg.riskPrompt = none → (runPipeline cfg).2 = false ∧
      Event.gatewayCall .risk ∉ (runPipeline cfg).1 ∧
      Event.persist .risk ∉ (runPipeline cfg).1 ∧
      Event.persist .review ∉ (runPipeline cfg).1) ∧
    (cfg.reviewPrompt = none → (runPipeline cfg).2 = false ∧
      Event.gatewayCall .review ∉ (runPipeline cfg).1 ∧
      Event.persist .review ∉ (runPipeline cfg).1) := by
  refine ⟨?_, ?_, ?_⟩
  · intro h
    rcases runPipeline_cases cfg with ⟨hrp, _⟩ | ⟨t1, hint, hrp⟩ |
      ⟨t1, io, t2, hint, hrisk, hrp⟩ | ⟨t1, io, t2, ro, t3, rr, hint, hrisk, hrev, hrp⟩
    · rw [hrp]
      exact ⟨rfl, by simp⟩
    · rw [run_intake_none cfg h] at hint
      injection hint with h1 h2
      rw [hrp]
      exact ⟨rfl, by rw [← h1]; simp⟩
    · rw [run_intake_none cfg h] at hint
      exact absurd hint (by simp)
    · rw [run_intake_none cfg h] at hint
      exact absurd hint (by simp)
  · intro h
    rcases runPipeline_cases cfg with ⟨hrp, _⟩ | ⟨t1, hint, hrp⟩ |
      ⟨t1, io, t2, hint, hrisk, hrp⟩ | ⟨t1, io, t2, ro, t3, rr, hint, hrisk, hrev, hrp⟩
    · rw [hrp]
      exact ⟨rfl, by simp, by simp, by simp⟩
    · rw [hrp]
      have hpre : t1 <+: [Event.gatewayCall .intake, Event.persist .intake] := by
        have := (run_intake_shape cfg).1
        rwa [hint] at this
      exact ⟨rfl, not_mem_of_pre hpre (by decide), not_mem_of_pre hpre (by decide),
        not_mem_of_pre hpre (by decide)⟩
    · rw [run_risk_none cfg io h] at hrisk
      injection hrisk with h1 h2
      subst h1
      rw [hrp]
      have hpre : t1 <+: [Event.gatewayCall .intake, Event.persist .intake] := by
        have := (run_intake_shape cfg).1
        rwa [hint] at this
      refine ⟨rfl, ?_, ?_, ?_⟩ <;>
        · rw [List.append_nil]
          exact not_mem_of_pre hpre (by decide)
    · rw [run_risk_none cfg io h] at hrisk
      exact absurd hrisk (by simp)
  · intro h
    rcases runPipeline_cases cfg with ⟨hrp, _⟩ | ⟨t1, hint, hrp⟩ |
      ⟨t1, io, t2, hint, hrisk, hrp⟩ | ⟨t1, io, t2, ro, t3, rr, hint, hrisk, hrev, hrp⟩
    · rw [hrp]
      exact ⟨rfl, by simp, by simp⟩
    · rw [hrp]
      have hpre : t1 <+: [Event.gatewayCall .intake, Event.persist .intake] := by
        have := (run_intake_shape cfg).1
        rwa [hint] at this
      exact ⟨rfl, not_mem_of_pre hpre (by decide), not_mem_of_pre hpre (by decide)⟩
    · rw [hrp]
      have hpre1 : t1 <+: [Event.gatewayCall .intake, Event.persist .intake] := by
        have := (run_intake_shape cfg).1
        rwa [hint] at this
      have hpre2 : t2 <+: [Event.gatewayCall .risk, Event.persist .risk] := by
        have := (run_risk_shape cfg io).1
        rwa [hrisk] at this
      refine ⟨rfl, ?_, ?_⟩ <;>
        · intro hc
          rcases List.mem_append.mp hc with h2 | h2
          · exact absurd (hpre1.subset h2) (by decide)
          · exact absurd (hpre2.subset h2) (by decide)
    · rw [run_review_none cfg io ro h] at hrev
      injection hrev with h1 h2
      subst h1
      subst h2
      rw [hrp]
      have hpre1 : t1 <+: [Event.gatewayCall .intake, Event.persist .intake] := by
        have := (run_intake_shape cfg).1
        rwa [hint] at this
      have hpre2 : t2 <+: [Event.gatewayCall .risk, Event.persist .risk] := by
        have := (run_risk_shape cfg io).1
        rwa [hrisk] at this
      refine ⟨rfl, ?_, ?_⟩ <;>
        · intro hc
          rw [List.append_nil] at hc
          rcases List.mem_append.mp hc with h2 | h2
          · exact absurd (hpre1.subset h2) (by decide)
          · exact absurd (hpre2.subset h2) (by decide)

/-- A full Intake response behind a fenced block, with the Risk template
missing. -/
def cfgC1 : Config where
  apiKey := some "k".toList
  intakePrompt := some "intake".toList
  riskPrompt := none
  reviewPrompt := some "review".toList
  prd := some "doc".toList
  oracle := fun s =>
    match s with
    | .intake =>
      ("```json\n\x7b\"plan_context\": \x7b\"purpose\": \"p\", \"in_scope\": \"i\"," ++
        " \"out_of_scope\": \"o\"\x7d, \"requirements\": []\x7d\n```").toList
    | _ => []
  folderName := "prd_clean_agile".toList
  today := "2026-10-12".toList

/-- C1 counterexample: with the Risk stage's template missing and every
other input in place, the run does fail — but only after the Intake
Gateway call has been made and the Intake artifact persisted, refuting
the claimed pre-execution (before-Intake) failure. -/
theorem C1_missing_template_counterexample :
    cfgC1.riskPrompt = none ∧
      Event.gatewayCall .intake ∈ (runPipeline cfgC1).1 ∧
      Event.persist .intake ∈ (runPipeline cfgC1).1 ∧
      (runPipeline cfgC1).2 = false := by
  refine ⟨rfl, ?_, ?_, rfl⟩ <;>
    · rw [show (runPipeline cfgC1).1 =
        [Event.gatewayCall .intake, Event.persist .intake] from rfl]
      decide

theorem C1_missing_template_witness :
    (runPipeline cfgC1).2 = false ∧
      Event.gatewayCall .risk ∉ (runPipeline cfgC1).1 ∧
      Event.persist .risk ∉ (runPipeline cfgC1).1 ∧
      Event.persist .review ∉ (runPipeline cfgC1).1 :=
  (C1_missing_template cfgC1).2.1 rfl

/-! ## Claim C9 -/

/-- C9: the Risk stage's Gateway input message is a function of the Intake
output's `requirements` value and of the presence/value of its
(unvalidated) `project_context` key alone — two Intake outputs agreeing on
those, however much their validated `plan_context` differs, produce
character-for-character identical messages; and an absent
`project_context` is serialized as `null`. -/
theorem C9_risk_input_independence :
    (∀ kvs1 kvs2 : List (PyStr × JVal),
      lookupKV kvs1 reqsKey = lookupKV kvs2 reqsKey →
      lookupKV kvs1 projCtxKey = lookupKV kvs2 projCtxKey →
      riskUserMessage (jobj kvs1) = riskUserMessage (jobj kvs2)) ∧
    (∀ kvs : List (PyStr × JVal), lookupKV kvs projCtxKey = none →
      riskUserMessage (jobj kvs) =
        .ok ("Here are the inputs to process:\n\nPROJECT CONTEXT:\n".toList ++
          ("null".toList ++
            ("\n\nREQUIREMENTS:\n".toList ++
              dumps true (lookupD kvs reqsKey (jarr [])))))) := by
  constructor
  · intro kvs1 kvs2 h1 h2
    simp [riskUserMessage, pyGet, lookupD, h1, h2]
  · intro kvs h
    simp [riskUserMessage, pyGet, lookupD, h]
    rfl

/-- Two Intake outputs identical except for their `plan_context`. -/
def c9a : List (PyStr × JVal) :=
  [(pcKey, jstr "first plan".toList), (reqsKey, jarr [jobj [(ridKey, jstr "R1".toList)]])]

def c9b : List (PyStr × JVal) :=
  [(pcKey, jobj [("purpose".toList, jstr "other".toList)]),
    (reqsKey, jarr [jobj [(ridKey, jstr "R1".toList)]])]

theorem C9_risk_input_independence_witness :
    riskUserMessage (jobj c9a) = riskUserMessage (jobj c9b) ∧
      riskUserMessage (jobj c9a) =
        .ok ("Here are the inputs to process:\n\nPROJECT CONTEXT:\n".toList ++
          ("null".toList ++
            ("\n\nREQUIREMENTS:\n".toList ++
              dumps true (lookupD c9a reqsKey (jarr []))))) :=
  ⟨C9_risk_input_independence.1 c9a c9b rfl rfl,
    C9_risk_input_independence.2 c9a rfl⟩

/-! ## Claim C10 -/

/-- C10: the Review text that is validated and, on success, persisted is
never the raw generated text as such but the raw text with every mojibake
sequence U+00E2 U+0080 U+0094 replaced by an em dash and the result
stripped of surrounding whitespace; a failed run validates (and rejects)
that same transformed text. -/
theorem C10_review_transform :
    (∀ (cfg : Config) (io ro : JVal) (c : PyStr),
      (run_review_agent cfg io ro).2 = some c →
      c = pyStrip (replaceAll (cfg.oracle .review) mojibake [emDash]) ∧
      _validate_review c = .ok ∧
      Event.persist .review ∈ (run_review_agent cfg io ro).1) ∧
    (∀ (cfg : Config) (io ro : JVal),
      (run_review_agent cfg io ro).2 = none →
      cfg.reviewPrompt = none ∨
        _validate_review (reviewOutput (cfg.oracle .review)) ≠ .ok) := by
  constructor
  · intro cfg io ro c h
    have hsh := run_review_shape cfg io ro
    unfold run_review_agent at h ⊢
    split at h
    · exact absurd h (by simp)
    · split at h
      · rename_i hok
        obtain rfl : reviewOutput (cfg.oracle .review) = c := by simpa using h
        refine ⟨rfl, hok, ?_⟩
        simp_all
      · exact absurd h (by simp)
  · intro cfg io ro h
    unfold run_review_agent at h
    split at h
    · rename_i hnone
      exact Or.inl hnone
    · split at h
      · exact absurd h (by simp)
      · rename_i hval
        exact Or.inr (by simpa using hval)

/-- A Review response containing the mojibake sequence and all four
section markers. -/
def cfgC10 : Config where
  apiKey := some "k".toList
  intakePrompt := some "intake".toList
  riskPrompt := some "risk".toList
  reviewPrompt := some "review".toList
  prd := some "doc".toList
  oracle := fun s =>
    match s with
    | .review =>
      "## Purpose â\u0080\u0094 x\n## In Scope\n## Out of Scope\n## Review Decision\n".toList
    | _ => []
  folderName := "prd_clean_agile".toList
  today := "2026-10-12".toList

def c10out : PyStr :=
  "## Purpose — x\n## In Scope\n## Out of Scope\n## Review Decision".toList

theorem C10_review_transform_witness :
    c10out = pyStrip (replaceAll (cfgC10.oracle .review) mojibake [emDash]) ∧
      _validate_review c10out = .ok ∧
      Event.persist .review ∈ (run_review_agent cfgC10 jnull jnull).1 :=
  C10_review_transform.1 cfgC10 jnull jnull c10out rfl

end RunPipeline
